import Mathlib

/-!
Verification development for the eCourts case scraper (app.py).

The scraping core is embedded shallowly: page text is a list of characters,
the regular expressions of the source are translated into executable
character-level matchers with the same leftmost-match semantics, browser/DOM
queries (Selenium, BeautifulSoup) are abstracted as oracle structures holding
exactly the answers the code asks of them, and the external dateutil parser
is a parameter of type Text -> Option Date.  The effectful workflow
functions additionally return the list of browser-session operations they
perform, read off the source line by line.
-/

namespace ECourts

/-- Text is modelled as a list of characters (ASCII model of Python str). -/
abbrev Text := List Char

/-- Calendar dates are abstracted as day counts; only equality and the
successor day (tomorrow) are used by the code. -/
abbrev Date := Nat

/-- Python regex word character (ASCII model): letter, digit or underscore. -/
def isWordChar (c : Char) : Bool := c.isAlpha || c.isDigit || c == '_'

/-- Character class of the case-sensitive CNR fallback regex [A-Z0-9]. -/
def isAlnumUpper (c : Char) : Bool := c.isUpper || c.isDigit

/-- Character class [A-Z0-9] under re.IGNORECASE: any letter or digit. -/
def isAlnumCI (c : Char) : Bool := c.isAlpha || c.isDigit

/-- Python whitespace class (backslash-s, ASCII model). -/
def isPySpace (c : Char) : Bool :=
  c == ' ' || c == '\t' || c == '\n' || c == '\r' || c == '\x0b' || c == '\x0c'

/-- Separator class [:\-\s] used after field labels. -/
def isSepChar (c : Char) : Bool := c == ':' || c == '-' || isPySpace c

/-- Value class [A-Za-z0-9\/\.\-\s] captured after a field label. -/
def isValueChar (c : Char) : Bool :=
  c.isAlpha || c.isDigit || c == '/' || c == '.' || c == '-' || isPySpace c

/-- Date separator class [\/\-\.] of the D/M/Y token regex. -/
def isDateSep (c : Char) : Bool := c == '/' || c == '-' || c == '.'

/-- Case-insensitive character equality (re.IGNORECASE, ASCII model). -/
def ciEq (a b : Char) : Bool := a.toLower == b.toLower

/-- Case-insensitive test that pat occurs at the head of the text. -/
def ciStarts : Text → Text → Bool
  | [], _ => true
  | _ :: _, [] => false
  | p :: ps, c :: cs => ciEq p c && ciStarts ps cs

/-- Case-sensitive test that pat occurs at the head of the text. -/
def litStarts : Text → Text → Bool
  | [], _ => true
  | _ :: _, [] => false
  | p :: ps, c :: cs => p == c && litStarts ps cs

/-- Python str.strip: drop leading and trailing whitespace. -/
def pyStrip (t : Text) : Text :=
  ((t.dropWhile isPySpace).reverse.dropWhile isPySpace).reverse

/-- Python substring containment (the in operator on str). -/
def containsSub (pat s : Text) : Bool :=
  (List.range (s.length + 1)).any fun i => litStarts pat (s.drop i)

/-- Attempt a pattern at position i of s.  The matcher f receives the
character before position i (for word boundaries) and the suffix from i. -/
def hitAt {α : Type} (f : Option Char → Text → Option α) (s : Text) (i : Nat) :
    Option α :=
  f (if i = 0 then none else s.get? (i - 1)) (s.drop i)

/-- Leftmost-match search: re.search tries every start position from the
left and returns the first position where the pattern matches.  No pattern
of the source can match the empty suffix, so positions up to length-1
suffice. -/
def reSearch {α : Type} (f : Option Char → Text → Option α) (s : Text) :
    Option α :=
  (List.range s.length).findSome? (hitAt f s)

/-- Word-boundary condition at a match start: the preceding character, when
there is one, is not a word character. -/
def boundaryStart : Option Char → Bool
  | none => true
  | some c => !isWordChar c

/-- Word-boundary condition after a match: the following character, when
there is one, is not a word character. -/
def boundaryEnd (rest : Text) : Bool :=
  match rest.head? with
  | none => true
  | some c => !isWordChar c

/-- The explanatory phrase of the primary CNR regex. -/
def cnrPhrase : Text := "(Note the CNR number".toList

/-- Matcher for the primary CNR regex of extract_case_details:
16 alphanumeric characters at a word boundary, then optional whitespace,
then the phrase "(Note the CNR number" (all case-insensitive). -/
def cnrPrimaryHit : Option Char → Text → Option Text := fun prev cs =>
  let tok := cs.take 16
  if (tok.length == 16) && tok.all isAlnumCI && boundaryStart prev
      && ciStarts cnrPhrase ((cs.drop 16).dropWhile isPySpace)
  then some tok else none

/-- Matcher for the fallback CNR regex: a standalone 16-character
uppercase-alphanumeric token delimited by word boundaries (this regex is
compiled without IGNORECASE). -/
def cnrFallbackHit : Option Char → Text → Option Text := fun prev cs =>
  let tok := cs.take 16
  if (tok.length == 16) && tok.all isAlnumUpper && boundaryStart prev
      && boundaryEnd (cs.drop 16)
  then some tok else none

/-- Matcher for the labelled-field regex key[:\-\s]*([A-Za-z0-9\/\.\-\s]+):
after the (case-insensitive) key, the separator run is consumed greedily;
if no value character follows, the regex engine gives separators back until
the captured group can take one character (separators that are dashes or
whitespace are also value characters). -/
def labeledHit (key : Text) : Option Char → Text → Option Text := fun _ cs =>
  if ciStarts key cs then
    let rest := cs.drop key.length
    let seps := rest.takeWhile isSepChar
    let after := rest.drop seps.length
    let v := after.takeWhile isValueChar
    if v.isEmpty then
      match seps.reverse.find? isValueChar with
      | some c => some [c]
      | none => none
    else some v
  else none

/-- Extraction of one labelled field: leftmost match, captured group,
Python strip of the value. -/
def labeledField (key : Text) (text : Text) : Option Text :=
  (reSearch (labeledHit key) text).map pyStrip

def caseTypeKey : Text := "Case Type".toList
def courtJudgeKey : Text := "Court Number and Judge".toList
def filingKey : Text := "Filing Number".toList
def regKey : Text := "Registration Number".toList

/-- CaseDetail record produced by extract_case_details; every field is
nullable. -/
structure CaseDetails where
  cnrNumber : Option Text
  caseType : Option Text
  courtNumberAndJudge : Option Text
  filingNumber : Option Text
  registrationNumber : Option Text
deriving DecidableEq

/-- Embedding of extract_case_details: the CNR number via the primary
phrase-anchored regex with the standalone-token fallback, and the four
labelled fields via independent leftmost searches. -/
def extract_case_details (text : Text) : CaseDetails :=
  { cnrNumber :=
      match reSearch cnrPrimaryHit text with
      | some t => some t
      | none => reSearch cnrFallbackHit text
    caseType := labeledField caseTypeKey text
    courtNumberAndJudge := labeledField courtJudgeKey text
    filingNumber := labeledField filingKey text
    registrationNumber := labeledField regKey text }

def nextLit : Text := "Next".toList
def hearingLit : Text := "Hearing".toList
def dateLit : Text := "Date".toList
def nextDateLit : Text := "NextDate".toList

/-- Case-insensitive literal: consume pat and return the remainder. -/
def ciLit (pat : Text) (cs : Text) : Option Text :=
  if ciStarts pat cs then some (cs.drop pat.length) else none

/-- One-or-more whitespace characters (backslash-s-plus), consumed
greedily; the following literal starts with a non-space character, so
greedy consumption is exact. -/
def spacesPlus (cs : Text) : Option Text :=
  let n := (cs.takeWhile isPySpace).length
  if n == 0 then none else some (cs.drop n)

/-- Alternation (Next\s+Hearing\s+Date|Next\s+Date|Next\s+Hearing|NextDate),
alternatives tried in regex order at one position. -/
def labelAlt (cs : Text) : Option Text :=
  match ((((ciLit nextLit cs).bind spacesPlus).bind
      (ciLit hearingLit)).bind spacesPlus).bind (ciLit dateLit) with
  | some r => some r
  | none =>
    match ((ciLit nextLit cs).bind spacesPlus).bind (ciLit dateLit) with
    | some r => some r
    | none =>
      match ((ciLit nextLit cs).bind spacesPlus).bind (ciLit hearingLit) with
      | some r => some r
      | none => ciLit nextDateLit cs

/-- Matcher for DATE_LABEL_REGEX: a hearing-date label variant followed by
[:\-\s]* consumed greedily; the result is the remainder of the row text
after the match end. -/
def labelHit : Option Char → Text → Option Text := fun _ cs =>
  (labelAlt cs).map fun r => r.dropWhile isSepChar

/-- Length of the leading digit run. -/
def digitRunLen (cs : Text) : Nat := (cs.takeWhile Char.isDigit).length

/-- Matcher for the D/M/Y alternative of the date-token regex
\d{1,2}[\/\-\.]\d{1,2}[\/\-\.]\d{2,4} at one position.  A digit run longer
than the quantifier bound cannot match because the following separator is
not a digit; the trailing year takes at most four digits greedily. -/
def dmyAt (cs : Text) : Option Text :=
  let d1 := digitRunLen cs
  if d1 == 0 || decide (d1 > 2) then none else
  let r1 := cs.drop d1
  match r1.head? with
  | none => none
  | some c1 =>
    if !isDateSep c1 then none else
    let r2 := r1.drop 1
    let d2 := digitRunLen r2
    if d2 == 0 || decide (d2 > 2) then none else
    let r3 := r2.drop d2
    match r3.head? with
    | none => none
    | some c2 =>
      if !isDateSep c2 then none else
      let r4 := r3.drop 1
      let d3 := digitRunLen r4
      if decide (d3 < 2) then none else
      some (cs.take (d1 + 1 + d2 + 1 + min d3 4))

/-- Matcher for the D Month Y alternative \d{1,2}\s+\w+\s+\d{4} at one
position.  Each greedy run is exact because the class that follows is
disjoint from the class being repeated. -/
def dMonthYAt (cs : Text) : Option Text :=
  let d1 := digitRunLen cs
  if d1 == 0 || decide (d1 > 2) then none else
  let r1 := cs.drop d1
  let s1 := (r1.takeWhile isPySpace).length
  if s1 == 0 then none else
  let r2 := r1.drop s1
  let w := (r2.takeWhile isWordChar).length
  if w == 0 then none else
  let r3 := r2.drop w
  let s2 := (r3.takeWhile isPySpace).length
  if s2 == 0 then none else
  let r4 := r3.drop s2
  if ((r4.take 4).length == 4) && (r4.take 4).all Char.isDigit
  then some (cs.take (d1 + s1 + w + s2 + 4)) else none

/-- Matcher for the full date-token regex used after the label: D/M/Y or
D Month Y, first alternative first. -/
def dateTokenFullHit : Option Char → Text → Option Text := fun _ cs =>
  match dmyAt cs with
  | some t => some t
  | none => dMonthYAt cs

/-- Matcher for the fallback whole-row scan, which looks only for the
D/M/Y shape. -/
def dmyHit : Option Char → Text → Option Text := fun _ cs => dmyAt cs

/-- Fallback of the row hearing-date logic (lines 345-348): scan the whole
row for a D/M/Y token and parse it, but only when the row text contains the
word "Next" (case-sensitive). -/
def dmyFallback (P : Text → Option Date) (row : Text) : Option Date :=
  match reSearch dmyHit row with
  | some t => if containsSub nextLit row then P t else none
  | none => none

/-- Row hearing-date extraction (lines 336-348 of extract_cases_from_soup):
find the label, strip the remainder, take the first date token after it and
parse it with the external parser P (parse_date_nullable); when any of
those steps yields nothing, run the whole-row fallback. -/
def rowHearingDate (P : Text → Option Date) (row : Text) : Option Date :=
  let viaLabel :=
    match reSearch labelHit row with
    | some after =>
      match reSearch dateTokenFullHit (pyStrip after) with
      | some t => P t
      | none => none
    | none => none
  match viaLabel with
  | some d => some d
  | none => dmyFallback P row

/-- One tr element of the listing table: the stripped texts of its td/th
cells and the stripped full row text. -/
structure TrRow where
  cells : List Text
  rowText : Text
deriving DecidableEq

/-- Parsed listing page, holding exactly the answers extract_cases_from_soup
asks of BeautifulSoup: the rows of the first table (if any) and the text of
the first h1/h2/h3 heading (if any). -/
structure Soup where
  table : Option (List TrRow)
  heading : Option Text
deriving DecidableEq

/-- ListingRow record produced per table row. -/
structure Case where
  serial : Text
  cols : List Text
  court_name : Text
  next_hearing_date : Option Date
deriving DecidableEq

def unknownCourt : Text := "Unknown Court".toList

/-- Construction of one listing row from a tr: serial is the stripped first
cell, the hearing date comes from the row text. -/
def mkCase (P : Text → Option Date) (court : Text) (tr : TrRow) : Case :=
  { serial := pyStrip (tr.cells.headD [])
    cols := tr.cells
    court_name := court
    next_hearing_date := rowHearingDate P tr.rowText }

/-- The for-loop of extract_cases_from_soup over the non-header rows: rows
without cells are skipped (continue), the rest are appended in order. -/
def extractRows (P : Text → Option Date) (court : Text) :
    List TrRow → List Case
  | [] => []
  | tr :: rest =>
    if tr.cells.isEmpty then extractRows P court rest
    else mkCase P court tr :: extractRows P court rest

/-- Embedding of extract_cases_from_soup: no table gives no rows; otherwise
the header row is skipped and the remaining rows are converted, the court
name being the first heading or "Unknown Court". -/
def extract_cases_from_soup (P : Text → Option Date) (soup : Soup) :
    List Case :=
  match soup.table with
  | none => []
  | some rows =>
    let court :=
      match soup.heading with
      | some h => h
      | none => unknownCourt
    extractRows P court (rows.drop 1)

/-- Hearing-date filter of process_scraping (lines 723-731): keep rows whose
parsed date is today or tomorrow; rows with no date are dropped. -/
def filterMatches (today : Date) (cases : List Case) : List Case :=
  cases.filter fun c =>
    match c.next_hearing_date with
    | some d => d == today || d == today + 1
    | none => false

/-- Browser-session operations performed by the scraper, one constructor
per driver primitive invoked in the source.  close is the release the
specification demands; no line of app.py performs it. -/
inductive Op
  | acquire
  | implicitlyWait
  | navigate
  | findElement
  | findElements
  | clickScript
  | clickNative
  | sendKeys
  | clearInput
  | pageSource
  | currentUrl
  | getCookies
  | screenshot
  | printToPDF
  | historyBack
  | close
deriving DecidableEq

/-- Outcome of probing for the next-page control on one listing page:
the literal Next link found enabled or disabled, the class/aria fallback
link found, or nothing found. -/
inductive NextProbe
  | primaryEnabled
  | primaryDisabled
  | secondary
  | noneFound
deriving DecidableEq

/-- Driver operations performed by one pagination probe. -/
def probeOps : NextProbe → List Op
  | .primaryEnabled => [Op.findElement, Op.clickNative]
  | .primaryDisabled => [Op.findElement]
  | .secondary => [Op.findElement, Op.findElement, Op.clickNative]
  | .noneFound => [Op.findElement, Op.findElement]

/-- Whether the probe outcome makes the loop continue to the next page. -/
def probeAdvances : NextProbe → Bool
  | .primaryEnabled => true
  | .secondary => true
  | _ => false

/-- Hard page-count ceiling of the pagination loop (max_pages = 10). -/
def max_pages : Nat := 10

/-- The while-loop of process_scraping (lines 694-719): while the page index
is at most the ceiling, extract the rows of the current page, append them,
probe for a next control and either advance or stop.  The fuel argument is
an upper bound on the remaining iterations; the loop itself terminates
because the index strictly increases. -/
def paginateAux (P : Text → Option Date) (pages : Nat → Soup)
    (probe : Nat → NextProbe) :
    Nat → Nat → List Case → List Case × List Op
  | 0, _, acc => (acc, [])
  | fuel + 1, i, acc =>
    if i ≤ max_pages then
      let cs := extract_cases_from_soup P (pages i)
      let ops := Op.pageSource :: probeOps (probe i)
      if probeAdvances (probe i) then
        let r := paginateAux P pages probe fuel (i + 1) (acc ++ cs)
        (r.1, ops ++ r.2)
      else (acc ++ cs, ops)
    else (acc, [])

/-- Pagination part of process_scraping, started at page 1 with an empty
accumulator and enough fuel for the ceiling. -/
def process_scraping_pages (P : Text → Option Date) (pages : Nat → Soup)
    (probe : Nat → NextProbe) : List Case × List Op :=
  paginateAux P pages probe (max_pages + 1) 1 []

/-- CapturedCase record assembled by capture_case_details_automated. -/
inductive Outcome
  | completed
  | failedNoAction
deriving DecidableEq

structure CapturedCase where
  serialNumber : Text
  cnrNumber : Option Text
  caseType : Option Text
  courtNumberAndJudge : Option Text
  filingNumber : Option Text
  registrationNumber : Option Text
  courtName : Text
  nextHearingDate : Option Date
  pdfSaved : Bool
  attachmentPaths : List Text
  outcome : Outcome
deriving DecidableEq

/-- Row handle reached from the td containing the serial: whether the row
holds a View link, and the texts of all anchor descendants. -/
structure RowHandle where
  rowHasViewLink : Bool
  allLinkTexts : List Text

/-- DOM oracle for find_and_click_view_button: for every page-wide View
link the text of its enclosing tr (none when it has no tr ancestor), and
the row handle found from a td containing a given serial. -/
structure Dom where
  viewLinkRows : List (Option Text)
  serialRow : Text → Option RowHandle

/-- Strategy 1 of find_and_click_view_button: walk the page-wide View
links; the first one whose enclosing row text contains the serial is
clicked via script injection. -/
def strat1Aux (serial : Text) : List (Option Text) → Bool × List Op
  | [] => (false, [])
  | none :: rest =>
    let r := strat1Aux serial rest
    (r.1, Op.findElement :: r.2)
  | some rowText :: rest =>
    if containsSub serial rowText then (true, [Op.findElement, Op.clickScript])
    else
      let r := strat1Aux serial rest
      (r.1, Op.findElement :: r.2)

/-- Embedding of find_and_click_view_button (lines 358-412): three
strategies tried in order, each clicking internally on success; the result
is the success flag together with the driver operations performed. -/
def find_and_click_view_button (dom : Dom) (serial : Text) :
    Bool × List Op :=
  let s1 := strat1Aux serial dom.viewLinkRows
  if s1.1 then (true, Op.findElements :: s1.2)
  else
    match dom.serialRow serial with
    | some row =>
      if row.rowHasViewLink then
        (true, Op.findElements :: s1.2
          ++ [Op.findElement, Op.findElement, Op.findElements, Op.clickScript])
      else
        match row.allLinkTexts.find? (fun t => !(pyStrip t).isEmpty) with
        | some _ =>
          (true, Op.findElements :: s1.2
            ++ [Op.findElement, Op.findElement, Op.findElements,
                Op.findElement, Op.findElement, Op.findElements, Op.clickScript])
        | none =>
          (false, Op.findElements :: s1.2
            ++ [Op.findElement, Op.findElement, Op.findElements,
                Op.findElement, Op.findElement, Op.findElements])
    | none =>
      (false, Op.findElements :: s1.2 ++ [Op.findElement, Op.findElement])

/-- Back-control oracle: which of the five back selectors finds an element,
and whether browser-level history back raises. -/
structure BackDom where
  selFound : List Bool
  backRaises : Bool

/-- The selector loop of click_back_button: the first selector that finds
its element leads to a script-injected click. -/
def backAux : List Bool → Bool × List Op
  | [] => (false, [])
  | found :: rest =>
    if found then (true, [Op.findElement, Op.clickScript])
    else
      let r := backAux rest
      (r.1, Op.findElement :: r.2)

/-- Embedding of click_back_button (lines 414-442): try the five selectors,
clicking internally on the first hit; otherwise fall back to browser
history back, which is reported as success unless it raises. -/
def click_back_button (bd : BackDom) : Bool × List Op :=
  let r := backAux bd.selFound
  if r.1 then (true, r.2)
  else if bd.backRaises then (false, r.2 ++ [Op.historyBack])
  else (true, r.2 ++ [Op.historyBack])

/-- Per-row environment: the DOM oracles and page content the browser
presents while this row is processed, and the outcomes of the best-effort
side steps (PDF snapshot success, per-link download results). -/
structure RowEnv where
  dom : Dom
  backDom : BackDom
  pdfSaved : Bool
  detailText : Text
  pdfLinks : List (Option Text)

/-- Embedding of capture_case_details_automated (lines 444-533): click the
View control for the serial; on success snapshot the page, extract the
fields, download the linked PDFs and navigate back, producing a Completed
record; on locator failure produce the FailedNoAction record with empty
details.  The returned dict is always non-empty, hence always truthy for
the caller. -/
def capture_case_details_automated (env : RowEnv) (c : Case) :
    CapturedCase × List Op :=
  let v := find_and_click_view_button env.dom c.serial
  if v.1 then
    let details := extract_case_details env.detailText
    let pdfs := env.pdfLinks.filterMap id
    let back := click_back_button env.backDom
    ({ serialNumber := c.serial
       cnrNumber := details.cnrNumber
       caseType := details.caseType
       courtNumberAndJudge := details.courtNumberAndJudge
       filingNumber := details.filingNumber
       registrationNumber := details.registrationNumber
       courtName := c.court_name
       nextHearingDate := c.next_hearing_date
       pdfSaved := env.pdfSaved
       attachmentPaths := pdfs
       outcome := Outcome.completed },
     v.2 ++ [Op.printToPDF, Op.pageSource, Op.pageSource]
        ++ env.pdfLinks.map (fun _ => Op.currentUrl)
        ++ back.2 ++ (if back.1 then [] else [Op.historyBack]))
  else
    ({ serialNumber := c.serial
       cnrNumber := none
       caseType := none
       courtNumberAndJudge := none
       filingNumber := none
       registrationNumber := none
       courtName := c.court_name
       nextHearingDate := c.next_hearing_date
       pdfSaved := false
       attachmentPaths := []
       outcome := Outcome.failedNoAction },
     v.2)

/-- The FailedNoAction record emitted for a row whose View control cannot
be located (lines 520-533). -/
def failedCase (c : Case) : CapturedCase :=
  { serialNumber := c.serial
    cnrNumber := none
    caseType := none
    courtNumberAndJudge := none
    filingNumber := none
    registrationNumber := none
    courtName := c.court_name
    nextHearingDate := c.next_hearing_date
    pdfSaved := false
    attachmentPaths := []
    outcome := Outcome.failedNoAction }

/-- The rerun-driven loop of perform_capture (lines 780-821): process the
match at the current index, append its record, move to the next index until
all matches are processed. -/
def captureLoop (envs : Nat → RowEnv) :
    Nat → List Case → List CapturedCase × List Op
  | _, [] => ([], [])
  | i, c :: rest =>
    let r := capture_case_details_automated (envs i) c
    let rs := captureLoop envs (i + 1) rest
    (r.1 :: rs.1, r.2 ++ rs.2)

/-- Embedding of perform_capture, started at index 0 with no captured
cases. -/
def perform_capture (envs : Nat → RowEnv) (ms : List Case) :
    List CapturedCase × List Op :=
  captureLoop envs 0 ms

/-- Driver operations of setup_driver on its success path (lines 179-215):
construct the Chrome session and set the implicit wait. -/
def setup_driver_trace : List Op := [Op.acquire, Op.implicitlyWait]

/-- Step 1 of scrape_cases_ui: setup_driver then driver.get of the portal
address. -/
def bootstrap_browser_trace : List Op := setup_driver_trace ++ [Op.navigate]

/-- Driver operations of save_captcha_image (lines 217-237): find the
captcha image, then either screenshot it (embedded data URL) or fetch it
over HTTP using the session cookies. -/
def save_captcha_image_trace (found embedded : Bool) : List Op :=
  if found then
    if embedded then [Op.findElement, Op.screenshot]
    else [Op.findElement, Op.getCookies]
  else [Op.findElement]

/-- Driver operations of the category-button loop of process_scraping
(lines 678-684): try Civil then Criminal, clicking the first that is
found. -/
def category_trace (civil criminal : Bool) : List Op :=
  if civil then [Op.findElement, Op.clickNative]
  else if criminal then [Op.findElement, Op.findElement, Op.clickNative]
  else [Op.findElement, Op.findElement]

/-- Driver operations of process_scraping (lines 661-745): fill the
captcha input, select the category, then paginate. -/
def process_scraping_trace (P : Text → Option Date) (pages : Nat → Soup)
    (probe : Nat → NextProbe) (civil criminal : Bool) : List Op :=
  [Op.findElement, Op.clearInput, Op.sendKeys] ++ category_trace civil criminal
    ++ (process_scraping_pages P pages probe).2

/-- All oracle inputs of one full scrape run. -/
structure RunParams where
  P : Text → Option Date
  pages : Nat → Soup
  probe : Nat → NextProbe
  today : Date
  envs : Nat → RowEnv
  captchaFound : Bool
  captchaEmbedded : Bool
  civilFound : Bool
  criminalFound : Bool

/-- Driver operations of a full scrape run: bootstrap, captcha display,
scraping and pagination, then the capture loop over the filtered
matches. -/
def scrape_run_trace (rp : RunParams) : List Op :=
  bootstrap_browser_trace
    ++ save_captcha_image_trace rp.captchaFound rp.captchaEmbedded
    ++ process_scraping_trace rp.P rp.pages rp.probe rp.civilFound rp.criminalFound
    ++ (perform_capture rp.envs
        (filterMatches rp.today (process_scraping_pages rp.P rp.pages rp.probe).1)).2

/-! Concrete instances used by witnesses and counterexamples. -/

/-- Sample listing rows for the filter witness. -/
def c2a : Case := ⟨"1".toList, [], "C".toList, some 5⟩
def c2b : Case := ⟨"2".toList, [], "C".toList, some 9⟩
def c2c : Case := ⟨"3".toList, [], "C".toList, none⟩

/-- Detail-page text containing the anchored CNR token of the claim. -/
def cnrExampleText : Text :=
  "Case listed. AB12CD34EF56GH78 (Note the CNR number for future reference)".toList

def cnrExampleToken : Text := "AB12CD34EF56GH78".toList

/-- Detail-page text with no 16-character alphanumeric token. -/
def cnrNoTokenText : Text := "hello world, nothing here".toList

/-- Detail-page text whose only 16-character alphanumeric token is
lowercase and not followed by the phrase. -/
def cnrLowerText : Text := "ab12cd34ef56gh78 nothing here".toList

def cnrLowerToken : Text := "ab12cd34ef56gh78".toList

/-- Modelled from the spec words for comparison with the source: the claim
reads "the first standalone 16-character alphanumeric token anywhere in
the text" with alphanumeric covering any letter case (as in the primary,
case-insensitive search); the source fallback regex [A-Z0-9]{16} without
IGNORECASE instead accepts uppercase letters and digits only. -/
def cnrClaimFallbackHit : Option Char → Text → Option Text := fun prev cs =>
  let tok := cs.take 16
  if (tok.length == 16) && tok.all isAlnumCI && boundaryStart prev
      && boundaryEnd (cs.drop 16)
  then some tok else none

/-- The two label orders of the order-independence counterexample. -/
def c8t1 : Text := "Case Type: Civil Filing Number: 123".toList
def c8t2 : Text := "Filing Number: 123 Case Type: Civil".toList

/-- The same two fields, now delimited by a comma (outside the captured
class), where swapping is harmless. -/
def c8comma1 : Text := "Case Type: Civil, Filing Number: 123".toList
def c8comma2 : Text := "Filing Number: 123, Case Type: Civil".toList

/-- Constant external parser used by the hearing-date witness. -/
def c7P : Text → Option Date := fun _ => some 42

def c7row : Text := "Next Hearing Date: 02/03/2024".toList
def c7after : Text := "02/03/2024".toList

/-- Listing page used by pagination and uniqueness examples: a header row
and one data row with serial 1 and a hearing date. -/
def c6header : TrRow := ⟨["Serial".toList], "Serial Court".toList⟩
def c6row : TrRow := ⟨["1".toList, "x".toList], "1 x Next Hearing Date: 01/01/2024".toList⟩
def c6rows : List TrRow := [c6header, c6row]
def c6soup : Soup := ⟨some c6rows, some "Court A".toList⟩
def c6pages : Nat → Soup := fun _ => c6soup
def c6P : Text → Option Date := fun t => if t = "01/01/2024".toList then some 7 else none

/-- Probe that advances from page 1 only, so two copies of the page are
accumulated. -/
def c6probe : Nat → NextProbe := fun i =>
  if i = 1 then NextProbe.primaryEnabled else NextProbe.primaryDisabled

/-- DOM oracle on which every view-button strategy fails. -/
def emptyDom : Dom := ⟨[], fun _ => none⟩

def c6back : BackDom := ⟨[false, false, false, false, false], false⟩
def c6env : RowEnv := ⟨emptyDom, c6back, false, [], []⟩

/-- Captured cases of the duplicated-serial run. -/
def c6result : List CapturedCase :=
  (perform_capture (fun _ => c6env)
    (filterMatches 7 (process_scraping_pages c6P c6pages c6probe).1)).1

/-- Rows with pairwise distinct serial labels. -/
def c6wa : Case := ⟨"1".toList, [], "C".toList, some 7⟩
def c6wb : Case := ⟨"2".toList, [], "C".toList, some 7⟩

/-- DOM oracle on which strategy 1 succeeds for serial 1. -/
def c9dom : Dom := ⟨[some "1 ABC View".toList], fun _ => none⟩

/-- Environment whose view locator succeeds (strategy 1). -/
def c1okEnv : RowEnv := ⟨c9dom, c6back, true, [], []⟩

/-- Environment whose view locator fails. -/
def c1failEnv : RowEnv := ⟨emptyDom, c6back, true, [], []⟩

def c1ra : Case := ⟨"1".toList, [], "C".toList, some 5⟩
def c1rb : Case := ⟨"2".toList, [], "C".toList, some 5⟩
def c1rc : Case := ⟨"3".toList, [], "C".toList, some 6⟩
def c1rows : List Case := [c1ra, c1rb, c1rc]

/-- Per-row environments: the locator fails exactly for row index 1. -/
def c1envs : Nat → RowEnv := fun i => if i = 1 then c1failEnv else c1okEnv

/-- Rows of page soups used by the pagination witness. -/
def c3pages : Nat → Soup := fun _ => c6soup
def c3probe : Nat → NextProbe := fun _ => NextProbe.primaryEnabled

/-- Specification shape of one labelled field: an independent leftmost
search for the label, first match winning, absent when no position
matches. -/
def labeledFieldSpec (key : Text) (proj : CaseDetails → Option Text) : Prop :=
  ∀ s : Text,
    (∀ i v, hitAt (labeledHit key) s i = some v →
      (∀ j, j < i → hitAt (labeledHit key) s j = none) →
      proj (extract_case_details s) = some (pyStrip v)) ∧
    ((∀ i, i < s.length → hitAt (labeledHit key) s i = none) →
      proj (extract_case_details s) = none)

end ECourts

namespace ECourts

/-! Generic lemmas about leftmost-match search. -/

/-- findSome? over an append chains the two searches. -/
theorem findSomeAppend {α β : Type} (f : α → Option β) (l₁ l₂ : List α) :
    (l₁ ++ l₂).findSome? f =
      match l₁.findSome? f with
      | some b => some b
      | none => l₂.findSome? f := by
  induction l₁ with
  | nil => simp
  | cons a l ih =>
    rw [List.cons_append, List.findSome?_cons, List.findSome?_cons]
    cases f a <;> simp [ih]

/-- A search over range n fails when every position fails. -/
theorem findSomeRange_none {β : Type} (g : Nat → Option β) (n : Nat)
    (h : ∀ i, i < n → g i = none) : (List.range n).findSome? g = none := by
  induction n with
  | zero => simp
  | succ n ih =>
    rw [List.range_succ, findSomeAppend, ih (fun i hi => h i (by omega))]
    rw [List.findSome?_cons, h n (by omega)]
    simp

/-- A search over range n returns the value of the least succeeding
position. -/
theorem findSomeRange_some {β : Type} (g : Nat → Option β) (n i : Nat) (t : β)
    (hin : i < n) (hg : g i = some t)
    (hleast : ∀ j, j < i → g j = none) :
    (List.range n).findSome? g = some t := by
  induction n with
  | zero => omega
  | succ n ih =>
    rw [List.range_succ, findSomeAppend]
    by_cases hi : i < n
    · rw [ih hi]
    · have hieq : i = n := by omega
      subst hieq
      rw [findSomeRange_none g i hleast, List.findSome?_cons, hg]

/-- reSearch finds the hit of the least matching position, for patterns
that cannot match the empty suffix. -/
theorem reSearch_eq_some {α : Type} (f : Option Char → Text → Option α)
    (s : Text) (i : Nat) (t : α)
    (hnil : ∀ p, f p [] = none)
    (hi : hitAt f s i = some t)
    (hleast : ∀ j, j < i → hitAt f s j = none) :
    reSearch f s = some t := by
  have hlt : i < s.length := by
    by_contra hcon
    have hdrop : s.drop i = [] := List.drop_eq_nil_of_le (by omega)
    rw [hitAt, hdrop, hnil] at hi
    cases hi
  exact findSomeRange_some _ _ i t hlt hi hleast

/-- reSearch fails when every position fails. -/
theorem reSearch_eq_none {α : Type} (f : Option Char → Text → Option α)
    (s : Text) (h : ∀ i, i < s.length → hitAt f s i = none) :
    reSearch f s = none :=
  findSomeRange_none _ _ h

/-- None of the matchers of the source can match the empty suffix. -/
theorem cnrPrimaryHit_nil (p : Option Char) : cnrPrimaryHit p [] = none := rfl

theorem cnrFallbackHit_nil (p : Option Char) : cnrFallbackHit p [] = none := rfl

theorem labelHit_nil (p : Option Char) : labelHit p [] = none := rfl

theorem dateTokenFullHit_nil (p : Option Char) : dateTokenFullHit p [] = none := rfl

theorem dmyHit_nil (p : Option Char) : dmyHit p [] = none := rfl

theorem labeledHit_nil (key : Text) (hk : key ≠ []) (p : Option Char) :
    labeledHit key p [] = none := by
  cases key with
  | nil => exact absurd rfl hk
  | cons c cs => rfl

/-! C2: the hearing-date filter. -/

/-- C2: the hearing-date filter returns an order-preserving subsequence of
its input, every returned row has nextHearingDate equal to today or
today plus one, and rows with an absent date are excluded (the filter is a
total function, so no error can be raised). -/
theorem C2_hearing_date_filter (today : Date) (cases : List Case) :
    (filterMatches today cases).Sublist cases ∧
    ∀ c, c ∈ filterMatches today cases →
      c.next_hearing_date = some today ∨ c.next_hearing_date = some (today + 1) := by
  constructor
  · exact List.filter_sublist cases
  · intro c hc
    rcases List.mem_filter.mp hc with ⟨-, hd⟩
    cases h : c.next_hearing_date with
    | none => rw [h] at hd; cases hd
    | some d =>
      rw [h] at hd
      simp only [Bool.or_eq_true, beq_iff_eq] at hd
      rcases hd with h1 | h1
      · left; rw [h1]
      · right; rw [h1]

/-- C2 witness: a concrete three-row list, with the filter applied at
today = 5. -/
theorem C2_hearing_date_filter_witness :
    (filterMatches 5 [c2a, c2b, c2c]).Sublist [c2a, c2b, c2c] ∧
    (c2a.next_hearing_date = some 5 ∨ c2a.next_hearing_date = some (5 + 1)) :=
  ⟨(C2_hearing_date_filter 5 [c2a, c2b, c2c]).1,
   (C2_hearing_date_filter 5 [c2a, c2b, c2c]).2 c2a (by decide)⟩

/-! C10: row extraction from a parsed listing page. -/

/-- The row loop keeps exactly the rows with cells, in order. -/
theorem extractRows_eq (P : Text → Option Date) (court : Text)
    (rows : List TrRow) :
    extractRows P court rows =
      (rows.filter (fun tr => !tr.cells.isEmpty)).map (mkCase P court) := by
  induction rows with
  | nil => rfl
  | cons tr rest ih =>
    by_cases h : tr.cells.isEmpty
    · simp [extractRows, h, List.filter_cons, ih]
    · simp [extractRows, h, List.filter_cons, ih]

/-- C10: with no table the extractor returns the empty sequence; otherwise
it returns exactly the non-header rows that have cells, in order, each
converted with the court name taken from the first heading or
"Unknown Court". -/
theorem C10_soup_row_extraction (P : Text → Option Date) (soup : Soup) :
    (soup.table = none → extract_cases_from_soup P soup = []) ∧
    (∀ rows, soup.table = some rows →
      extract_cases_from_soup P soup =
        ((rows.drop 1).filter (fun tr => !tr.cells.isEmpty)).map
          (mkCase P (soup.heading.getD unknownCourt))) ∧
    (∀ c, c ∈ extract_cases_from_soup P soup →
      c.court_name = soup.heading.getD unknownCourt) := by
  refine ⟨fun h => by simp [extract_cases_from_soup, h], ?_, ?_⟩
  · intro rows h
    cases hh : soup.heading with
    | none => simp [extract_cases_from_soup, h, hh, extractRows_eq]
    | some t => simp [extract_cases_from_soup, h, hh, extractRows_eq]
  · intro c hc
    cases ht : soup.table with
    | none => simp [extract_cases_from_soup, ht] at hc
    | some rows =>
      cases hh : soup.heading with
      | none =>
        simp only [extract_cases_from_soup, ht, hh, extractRows_eq] at hc
        rcases List.mem_map.mp hc with ⟨tr, -, htr⟩
        rw [← htr]
        rfl
      | some t =>
        simp only [extract_cases_from_soup, ht, hh, extractRows_eq] at hc
        rcases List.mem_map.mp hc with ⟨tr, -, htr⟩
        rw [← htr]
        rfl

/-- C10 witness: the concrete two-row page, whose header is skipped. -/
theorem C10_soup_row_extraction_witness :
    extract_cases_from_soup c6P c6soup =
      ((c6rows.drop 1).filter (fun tr => !tr.cells.isEmpty)).map
        (mkCase c6P (c6soup.heading.getD unknownCourt)) :=
  (C10_soup_row_extraction c6P c6soup).2.1 c6rows rfl

/-! C4: CNR identifier extraction. -/

/-- C4 counterexample: on a text whose only standalone 16-character
alphanumeric token is lowercase, the token exists under the claim reading
of alphanumeric (any letter case, as modelled by cnrClaimFallbackHit), the
phrase-anchored pattern matches nowhere, yet extraction leaves the field
absent, because the source fallback regex is case-sensitive uppercase. -/
theorem C4_cnr_case_cex :
    hitAt cnrClaimFallbackHit cnrLowerText 0 = some cnrLowerToken ∧
    (∀ i, i < cnrLowerText.length → hitAt cnrPrimaryHit cnrLowerText i = none) ∧
    (extract_case_details cnrLowerText).cnrNumber = none := by
  decide

/-- C4 amended: the extractor returns the token of the first position where
the case-insensitive phrase-anchored pattern matches; when no position
matches it, the token of the first position where the standalone
uppercase-alphanumeric pattern (the case-sensitive [A-Z0-9]{16} fallback)
matches; when neither pattern matches anywhere, the field is absent; and
on the text of the claim it yields exactly AB12CD34EF56GH78. -/
theorem C4_cnr_extraction (s : Text) :
    (∀ i t, hitAt cnrPrimaryHit s i = some t →
      (∀ j, j < i → hitAt cnrPrimaryHit s j = none) →
      (extract_case_details s).cnrNumber = some t) ∧
    ((∀ i, i < s.length → hitAt cnrPrimaryHit s i = none) →
      ∀ i t, hitAt cnrFallbackHit s i = some t →
      (∀ j, j < i → hitAt cnrFallbackHit s j = none) →
      (extract_case_details s).cnrNumber = some t) ∧
    ((∀ i, i < s.length → hitAt cnrPrimaryHit s i = none) →
      (∀ i, i < s.length → hitAt cnrFallbackHit s i = none) →
      (extract_case_details s).cnrNumber = none) ∧
    (extract_case_details cnrExampleText).cnrNumber = some cnrExampleToken := by
  refine ⟨?_, ?_, ?_, by decide⟩
  · intro i t hi hleast
    have h := reSearch_eq_some cnrPrimaryHit s i t cnrPrimaryHit_nil hi hleast
    simp [extract_case_details, h]
  · intro hp i t hi hleast
    have h1 := reSearch_eq_none cnrPrimaryHit s hp
    have h2 := reSearch_eq_some cnrFallbackHit s i t cnrFallbackHit_nil hi hleast
    simp [extract_case_details, h1, h2]
  · intro hp hf
    have h1 := reSearch_eq_none cnrPrimaryHit s hp
    have h2 := reSearch_eq_none cnrFallbackHit s hf
    simp [extract_case_details, h1, h2]

/-- C4 witness: a text with no 16-character token anywhere, on which both
patterns fail at every position and the field is absent. -/
theorem C4_cnr_extraction_witness :
    (extract_case_details cnrNoTokenText).cnrNumber = none :=
  (C4_cnr_extraction cnrNoTokenText).2.2.1 (by decide) (by decide)

/-! C8: labelled-field extraction and order independence. -/

/-- Both halves of the labelled-field specification hold of labeledField
itself. -/
theorem labeledField_least (key : Text) (hk : key ≠ []) (s : Text) :
    (∀ i v, hitAt (labeledHit key) s i = some v →
      (∀ j, j < i → hitAt (labeledHit key) s j = none) →
      labeledField key s = some (pyStrip v)) ∧
    ((∀ i, i < s.length → hitAt (labeledHit key) s i = none) →
      labeledField key s = none) := by
  constructor
  · intro i v hi hleast
    rw [labeledField,
      reSearch_eq_some (labeledHit key) s i v (labeledHit_nil key hk) hi hleast]
    rfl
  · intro h
    rw [labeledField, reSearch_eq_none _ _ h]
    rfl

/-- C8 counterexample: swapping the order of the two labels changes both
extracted values, because the captured run of the first field extends
across the following label. -/
theorem C8_order_cex :
    ¬ ((extract_case_details c8t1).caseType = (extract_case_details c8t2).caseType ∧
       (extract_case_details c8t1).filingNumber =
         (extract_case_details c8t2).filingNumber) := by
  decide

/-- C8 amended: each of the four labelled fields is extracted by an
independent leftmost search for its label followed by separators, the
first match wins and the field is absent when no match exists; but the
captured run may extend across a following label, so swapping two labels
yields the same values only when each value is terminated by a character
outside the captured class, as in the comma-delimited instance. -/
theorem C8_labeled_fields_amended :
    labeledFieldSpec caseTypeKey CaseDetails.caseType ∧
    labeledFieldSpec courtJudgeKey CaseDetails.courtNumberAndJudge ∧
    labeledFieldSpec filingKey CaseDetails.filingNumber ∧
    labeledFieldSpec regKey CaseDetails.registrationNumber ∧
    ((extract_case_details c8comma1).caseType =
        (extract_case_details c8comma2).caseType ∧
      (extract_case_details c8comma1).filingNumber =
        (extract_case_details c8comma2).filingNumber) := by
  refine ⟨?_, ?_, ?_, ?_, by decide⟩
  · intro s; exact labeledField_least caseTypeKey (by decide) s
  · intro s; exact labeledField_least courtJudgeKey (by decide) s
  · intro s; exact labeledField_least filingKey (by decide) s
  · intro s; exact labeledField_least regKey (by decide) s

/-- C8 witness: the Case Type field of the comma-delimited text, obtained
from the least matching position 0. -/
theorem C8_labeled_fields_amended_witness :
    (extract_case_details c8comma1).caseType = some (pyStrip "Civil".toList) :=
  (C8_labeled_fields_amended.1 c8comma1).1 0 "Civil".toList (by decide)
    (fun j hj => absurd hj (Nat.not_lt_zero j))

/-! C7: row hearing-date extraction. -/

/-- C7: the hearing date of a row is computed by locating the first
position where a next-hearing label variant matches, searching the
stripped remainder for the first D/M/Y or D-Month-Y token and parsing it;
when no label matches, no token follows the label, or parsing fails, the
whole row is scanned for the first D/M/Y token, which is parsed only when
the row text contains the word Next; otherwise the date is absent.  Every
path returns an optional value, never an error. -/
theorem C7_hearing_date_extraction (P : Text → Option Date) (row : Text) :
    (∀ i after, hitAt labelHit row i = some after →
      (∀ j, j < i → hitAt labelHit row j = none) →
      ((∀ k t, hitAt dateTokenFullHit (pyStrip after) k = some t →
          (∀ m, m < k → hitAt dateTokenFullHit (pyStrip after) m = none) →
          rowHearingDate P row =
            match P t with
            | some d => some d
            | none => dmyFallback P row) ∧
        ((∀ k, k < (pyStrip after).length →
            hitAt dateTokenFullHit (pyStrip after) k = none) →
          rowHearingDate P row = dmyFallback P row))) ∧
    ((∀ i, i < row.length → hitAt labelHit row i = none) →
      rowHearingDate P row = dmyFallback P row) ∧
    (∀ k t, hitAt dmyHit row k = some t →
      (∀ m, m < k → hitAt dmyHit row m = none) →
      dmyFallback P row = if containsSub nextLit row then P t else none) ∧
    ((∀ k, k < row.length → hitAt dmyHit row k = none) →
      dmyFallback P row = none) := by
  refine ⟨?_, ?_, ?_, ?_⟩
  · intro i after hi hleast
    have hl := reSearch_eq_some labelHit row i after labelHit_nil hi hleast
    constructor
    · intro k t hk hkleast
      have ht := reSearch_eq_some dateTokenFullHit (pyStrip after) k t
        dateTokenFullHit_nil hk hkleast
      simp only [rowHearingDate, hl, ht]
    · intro hnone
      have ht := reSearch_eq_none dateTokenFullHit (pyStrip after) hnone
      simp [rowHearingDate, hl, ht]
  · intro h
    have hl := reSearch_eq_none labelHit row h
    simp [rowHearingDate, hl]
  · intro k t hk hkleast
    have ht := reSearch_eq_some dmyHit row k t dmyHit_nil hk hkleast
    simp [dmyFallback, ht]
  · intro h
    have ht := reSearch_eq_none dmyHit row h
    simp [dmyFallback, ht]

/-- C7 witness: a row whose label matches at position 0 and whose first
token after the label parses, applied with a constant parser. -/
theorem C7_hearing_date_extraction_witness :
    rowHearingDate c7P c7row = some 42 :=
  ((C7_hearing_date_extraction c7P c7row).1 0 c7after (by decide)
      (fun j hj => absurd hj (Nat.not_lt_zero j))).1 0 c7after (by decide)
    (fun m hm => absurd hm (Nat.not_lt_zero m))

/-! C3: the pagination ceiling. -/

/-- Past the ceiling the loop body is never entered. -/
theorem paginateAux_gt (P : Text → Option Date) (pages : Nat → Soup)
    (probe : Nat → NextProbe) (fuel i : Nat) (acc : List Case)
    (h : max_pages < i) :
    paginateAux P pages probe fuel i acc = (acc, []) := by
  have hn : ¬ i ≤ max_pages := by omega
  cases fuel with
  | zero => rfl
  | succ n => simp [paginateAux, hn]

/-- The loop always returns the concatenated rows of an initial stretch of
pages ending at or before the ceiling. -/
theorem paginateAux_spec (P : Text → Option Date) (pages : Nat → Soup)
    (probe : Nat → NextProbe) :
    ∀ fuel i acc, 1 ≤ i → i ≤ max_pages → max_pages + 1 ≤ i + fuel →
    ∃ k, i ≤ k ∧ k ≤ max_pages ∧
      (paginateAux P pages probe fuel i acc).1 =
        acc ++ ((List.range' i (k + 1 - i)).map
          (fun j => extract_cases_from_soup P (pages j))).flatten := by
  intro fuel
  induction fuel with
  | zero => intro i acc h1 h2 h3; omega
  | succ fuel ih =>
    intro i acc h1 h2 h3
    by_cases hadv : probeAdvances (probe i) = true
    · by_cases hle : i + 1 ≤ max_pages
      · obtain ⟨k, hk1, hk2, hk3⟩ :=
          ih (i + 1) (acc ++ extract_cases_from_soup P (pages i)) (by omega) hle (by omega)
        refine ⟨k, by omega, hk2, ?_⟩
        have h6 : k + 1 - (i + 1) = k - i := by omega
        rw [h6] at hk3
        simp only [paginateAux, if_pos h2, hadv, if_true]
        rw [hk3]
        have h5 : k + 1 - i = (k - i) + 1 := by omega
        rw [h5, List.range'_succ]
        simp [List.append_assoc]
      · have hieq : i = max_pages := by omega
        refine ⟨i, le_refl i, h2, ?_⟩
        simp only [paginateAux, if_pos h2, hadv, if_true]
        rw [paginateAux_gt P pages probe fuel (i + 1) _ (by omega)]
        have h4 : i + 1 - i = 1 := by omega
        simp [h4, List.range'_one]
    · have hfalse : probeAdvances (probe i) = false := by
        revert hadv; cases probeAdvances (probe i) <;> simp
      refine ⟨i, le_refl i, h2, ?_⟩
      simp only [paginateAux, if_pos h2, hfalse, if_false, Bool.false_eq_true]
      have h4 : i + 1 - i = 1 := by omega
      simp [h4, List.range'_one]

/-- When the probe advances on every page the loop visits exactly the pages
up to the ceiling. -/
theorem paginateAux_full (P : Text → Option Date) (pages : Nat → Soup)
    (probe : Nat → NextProbe)
    (hall : ∀ i, probe i = NextProbe.primaryEnabled) :
    ∀ fuel i acc, 1 ≤ i → i ≤ max_pages → max_pages + 1 ≤ i + fuel →
    (paginateAux P pages probe fuel i acc).1 =
      acc ++ ((List.range' i (max_pages + 1 - i)).map
        (fun j => extract_cases_from_soup P (pages j))).flatten := by
  intro fuel
  induction fuel with
  | zero => intro i acc h1 h2 h3; omega
  | succ fuel ih =>
    intro i acc h1 h2 h3
    have hadv : probeAdvances (probe i) = true := by rw [hall i]; rfl
    by_cases hle : i + 1 ≤ max_pages
    · simp only [paginateAux, if_pos h2, hadv, if_true]
      rw [ih (i + 1) _ (by omega) hle (by omega)]
      have h6 : max_pages + 1 - (i + 1) = max_pages - i := by omega
      have h5 : max_pages + 1 - i = (max_pages - i) + 1 := by omega
      rw [h6, h5, List.range'_succ]
      simp [List.append_assoc]
    · have hieq : i = max_pages := by omega
      simp only [paginateAux, if_pos h2, hadv, if_true]
      rw [paginateAux_gt P pages probe fuel (i + 1) _ (by omega)]
      have h4 : max_pages + 1 - i = 1 := by omega
      simp [h4, List.range'_one]

/-- C3: pagination always stops after visiting an initial stretch of at
most ten pages and returns the rows accumulated so far, and when the Next
control is found enabled on every page it visits exactly ten pages. -/
theorem C3_paginator_ceiling (P : Text → Option Date) (pages : Nat → Soup)
    (probe : Nat → NextProbe) :
    (∃ k, 1 ≤ k ∧ k ≤ max_pages ∧
      (process_scraping_pages P pages probe).1 =
        ((List.range' 1 k).map
          (fun j => extract_cases_from_soup P (pages j))).flatten) ∧
    ((∀ i, probe i = NextProbe.primaryEnabled) →
      (process_scraping_pages P pages probe).1 =
        ((List.range' 1 max_pages).map
          (fun j => extract_cases_from_soup P (pages j))).flatten) := by
  constructor
  · obtain ⟨k, hk1, hk2, hk3⟩ :=
      paginateAux_spec P pages probe (max_pages + 1) 1 [] (le_refl 1)
        (by decide) (by omega)
    refine ⟨k, hk1, hk2, ?_⟩
    rw [process_scraping_pages, hk3]
    have h4 : k + 1 - 1 = k := by omega
    rw [h4, List.nil_append]
  · intro hall
    rw [process_scraping_pages,
      paginateAux_full P pages probe hall (max_pages + 1) 1 [] (le_refl 1)
        (by decide) (by omega), List.nil_append, Nat.add_sub_cancel]

/-- C3 witness: ten copies of the sample page are collected when the Next
control is always found enabled. -/
theorem C3_paginator_ceiling_witness :
    (process_scraping_pages c6P c3pages c3probe).1 =
      ((List.range' 1 max_pages).map
        (fun j => extract_cases_from_soup c6P (c3pages j))).flatten :=
  (C3_paginator_ceiling c6P c3pages c3probe).2 (fun _ => rfl)

/-! C1: one captured record per filtered row. -/

/-- The capture loop produces one record per remaining row. -/
theorem captureLoop_length (envs : Nat → RowEnv) :
    ∀ (ms : List Case) (i : Nat),
      ((captureLoop envs i ms).1).length = ms.length := by
  intro ms
  induction ms with
  | nil => intro i; rfl
  | cons c rest ih => intro i; simp [captureLoop, ih]

/-- The record at index k of the capture loop output comes from the row at
index k, processed with the environment of its absolute index. -/
theorem captureLoop_get (envs : Nat → RowEnv) :
    ∀ (ms : List Case) (i k : Nat),
      ((captureLoop envs i ms).1)[k]? =
        (ms[k]?).map
          (fun c => (capture_case_details_automated (envs (i + k)) c).1) := by
  intro ms
  induction ms with
  | nil => intro i k; simp [captureLoop]
  | cons c rest ih =>
    intro i k
    cases k with
    | zero => simp [captureLoop]
    | succ k =>
      have harith : i + (k + 1) = (i + 1) + k := by omega
      simp only [captureLoop, List.getElem?_cons_succ, harith]
      exact ih (i + 1) k

/-- Both branches of the per-row capture preserve the serial label. -/
theorem capture_serial (env : RowEnv) (c : Case) :
    ((capture_case_details_automated env c).1).serialNumber = c.serial := by
  cases h : (find_and_click_view_button env.dom c.serial).1 with
  | false => simp [capture_case_details_automated, h]
  | true => simp [capture_case_details_automated, h]

/-- A row whose view locator fails yields exactly the FailedNoAction
record. -/
theorem capture_failed (env : RowEnv) (c : Case)
    (h : (find_and_click_view_button env.dom c.serial).1 = false) :
    (capture_case_details_automated env c).1 = failedCase c := by
  simp [capture_case_details_automated, h, failedCase]

/-- C1: the capture workflow produces exactly one record per filtered row,
in input order; a row whose view locator reports failure yields the
FailedNoAction record with absent details, documentSaved false and no
attachment paths, while every other row is still processed at its own
index. -/
theorem C1_capture_batch (envs : Nat → RowEnv) (ms : List Case) :
    ((perform_capture envs ms).1).length = ms.length ∧
    (∀ k c, ms[k]? = some c →
      ((perform_capture envs ms).1)[k]? =
        some ((capture_case_details_automated (envs k) c).1)) ∧
    (∀ k c, ms[k]? = some c →
      (find_and_click_view_button (envs k).dom c.serial).1 = false →
      ((perform_capture envs ms).1)[k]? = some (failedCase c)) := by
  refine ⟨captureLoop_length envs ms 0, ?_, ?_⟩
  · intro k c hk
    rw [perform_capture, captureLoop_get envs ms 0 k, hk]
    simp [Nat.zero_add]
  · intro k c hk hfail
    rw [perform_capture, captureLoop_get envs ms 0 k, hk]
    simp [Nat.zero_add, capture_failed (envs k) c hfail]

/-- C1 witness: three rows, of which the middle one has no view control
and yields the FailedNoAction record. -/
theorem C1_capture_batch_witness :
    ((perform_capture c1envs c1rows).1)[1]? = some (failedCase c1rb) :=
  (C1_capture_batch c1envs c1rows).2.2 1 c1rb (by decide) (by decide)

/-! C6: serial-label uniqueness. -/

/-- The serial labels of the captured records are exactly the serial labels
of the input rows, in order. -/
theorem captureLoop_serials (envs : Nat → RowEnv) :
    ∀ (ms : List Case) (i : Nat),
      ((captureLoop envs i ms).1).map CapturedCase.serialNumber =
        ms.map Case.serial := by
  intro ms
  induction ms with
  | nil => intro i; rfl
  | cons c rest ih => intro i; simp [captureLoop, capture_serial, ih]

/-- C6 counterexample: a run whose pagination accumulates the same page
twice produces two captured cases with the same serial label. -/
theorem C6_serial_unique_cex :
    ¬ (c6result.map CapturedCase.serialNumber).Nodup := by decide

/-- C6 amended: the workflow preserves serial labels one-to-one and in
order, so the captured serial labels are pairwise distinct whenever the
filtered input rows carry pairwise distinct serial labels; the code itself
enforces no uniqueness across pages. -/
theorem C6_serial_unique_amended (envs : Nat → RowEnv) (ms : List Case)
    (h : (ms.map Case.serial).Nodup) :
    (((perform_capture envs ms).1).map CapturedCase.serialNumber).Nodup := by
  rw [perform_capture, captureLoop_serials]
  exact h

/-- C6 witness: two rows with distinct serial labels give distinct captured
labels. -/
theorem C6_serial_unique_amended_witness :
    (((perform_capture (fun _ => c6env) [c6wa, c6wb]).1).map
      CapturedCase.serialNumber).Nodup :=
  C6_serial_unique_amended (fun _ => c6env) [c6wa, c6wb] (by decide)

/-! C9: the locators click internally. -/

/-- Strategy 1 clicks exactly when it succeeds. -/
theorem strat1_click (serial : Text) :
    ∀ l : List (Option Text),
      ((strat1Aux serial l).1 = true ↔
        Op.clickScript ∈ (strat1Aux serial l).2) := by
  intro l
  induction l with
  | nil => simp [strat1Aux]
  | cons a rest ih =>
    cases a with
    | none => simp [strat1Aux, ih]
    | some t =>
      by_cases h : containsSub serial t <;> simp [strat1Aux, h, ih]

/-- The back-selector loop clicks when it succeeds. -/
theorem backAux_click :
    ∀ l : List Bool, (backAux l).1 = true → Op.clickScript ∈ (backAux l).2 := by
  intro l
  induction l with
  | nil => intro h; simp [backAux] at h
  | cons b rest ih =>
    cases b with
    | true => intro _; simp [backAux]
    | false =>
      intro h
      simp only [backAux] at h ⊢
      simp at h ⊢
      exact ih h

/-- C9 counterexample: on a concrete page the view locator itself performs
a script-injected click, so it is not a pure lookup whose click is left to
the caller. -/
theorem C9_locator_clicks_cex :
    Op.clickScript ∈ (find_and_click_view_button c9dom "1".toList).2 := by
  decide

/-- C9 amended: the locator helpers resolve and click internally: the view
locator performs a script click exactly when it reports success, and the
back locator always performs either an internal click or browser-level
history back; no element handle is returned for the caller to click. -/
theorem C9_locator_amended (dom : Dom) (serial : Text) (bd : BackDom) :
    ((find_and_click_view_button dom serial).1 = true ↔
      Op.clickScript ∈ (find_and_click_view_button dom serial).2) ∧
    (Op.clickScript ∈ (click_back_button bd).2 ∨
      Op.historyBack ∈ (click_back_button bd).2) := by
  constructor
  · cases hs : (strat1Aux serial dom.viewLinkRows).1 with
    | true =>
      have hm := (strat1_click serial dom.viewLinkRows).mp hs
      simp [find_and_click_view_button, hs, hm]
    | false =>
      have hm : Op.clickScript ∉ (strat1Aux serial dom.viewLinkRows).2 := by
        intro hmem
        have := (strat1_click serial dom.viewLinkRows).mpr hmem
        rw [hs] at this
        cases this
      cases hrow : dom.serialRow serial with
      | some row =>
        by_cases hv : row.rowHasViewLink
        · simp [find_and_click_view_button, hs, hrow, hv]
        · cases hf : row.allLinkTexts.find? (fun t => !(pyStrip t).isEmpty) with
          | some x => simp [find_and_click_view_button, hs, hrow, hv, hf]
          | none => simp [find_and_click_view_button, hs, hrow, hv, hf, hm]
      | none => simp [find_and_click_view_button, hs, hrow, hm]
  · cases hb : (backAux bd.selFound).1 with
    | true =>
      left
      have hc := backAux_click bd.selFound hb
      simp [click_back_button, hb, hc]
    | false =>
      right
      by_cases hr : bd.backRaises <;> simp [click_back_button, hb, hr]

/-- C9 witness: the back locator on the concrete oracle performs a click or
a history back. -/
theorem C9_locator_amended_witness :
    Op.clickScript ∈ (click_back_button c6back).2 ∨
      Op.historyBack ∈ (click_back_button c6back).2 :=
  (C9_locator_amended c9dom "1".toList c6back).2

/-! C5: the browser session is never released. -/

theorem close_not_probeOps (p : NextProbe) : Op.close ∉ probeOps p := by
  cases p <;> decide

theorem close_not_paginate (P : Text → Option Date) (pages : Nat → Soup)
    (probe : Nat → NextProbe) :
    ∀ fuel i acc, Op.close ∉ (paginateAux P pages probe fuel i acc).2 := by
  intro fuel
  induction fuel with
  | zero => intro i acc; simp [paginateAux]
  | succ fuel ih =>
    intro i acc
    by_cases h2 : i ≤ max_pages
    · by_cases hadv : probeAdvances (probe i) = true
      · simp only [paginateAux, if_pos h2, hadv, if_true]
        intro hmem
        rw [List.cons_append] at hmem
        rcases List.mem_cons.mp hmem with h | hmem2
        · cases h
        · rcases List.mem_append.mp hmem2 with h | h
          · exact close_not_probeOps _ h
          · exact ih (i + 1) _ h
      · have hfalse : probeAdvances (probe i) = false := by
          revert hadv; cases probeAdvances (probe i) <;> simp
        simp only [paginateAux, if_pos h2, hfalse, Bool.false_eq_true, if_false]
        intro hmem
        simp only [List.mem_cons] at hmem
        rcases hmem with h | h
        · cases h
        · exact close_not_probeOps _ h
    · simp [paginateAux, h2]

theorem close_not_strat1 (serial : Text) :
    ∀ l : List (Option Text), Op.close ∉ (strat1Aux serial l).2 := by
  intro l
  induction l with
  | nil => simp [strat1Aux]
  | cons a rest ih =>
    cases a with
    | none => simp [strat1Aux, ih]
    | some t =>
      by_cases h : containsSub serial t <;> simp [strat1Aux, h, ih]

theorem close_not_find (dom : Dom) (serial : Text) :
    Op.close ∉ (find_and_click_view_button dom serial).2 := by
  have h1 := close_not_strat1 serial dom.viewLinkRows
  cases hs : (strat1Aux serial dom.viewLinkRows).1 with
  | true => simp [find_and_click_view_button, hs, h1]
  | false =>
    cases hrow : dom.serialRow serial with
    | some row =>
      by_cases hv : row.rowHasViewLink
      · simp [find_and_click_view_button, hs, hrow, hv, h1]
      · cases hf : row.allLinkTexts.find? (fun t => !(pyStrip t).isEmpty) with
        | some x => simp [find_and_click_view_button, hs, hrow, hv, hf, h1]
        | none => simp [find_and_click_view_button, hs, hrow, hv, hf, h1]
    | none => simp [find_and_click_view_button, hs, hrow, h1]

theorem close_not_backAux : ∀ l : List Bool, Op.close ∉ (backAux l).2 := by
  intro l
  induction l with
  | nil => simp [backAux]
  | cons b rest ih =>
    cases b with
    | true => simp [backAux]
    | false => simp [backAux, ih]

theorem close_not_back (bd : BackDom) :
    Op.close ∉ (click_back_button bd).2 := by
  have h1 := close_not_backAux bd.selFound
  cases hb : (backAux bd.selFound).1 with
  | true => simp [click_back_button, hb, h1]
  | false =>
    by_cases hr : bd.backRaises <;> simp [click_back_button, hb, hr, h1]

theorem close_not_capture (env : RowEnv) (c : Case) :
    Op.close ∉ (capture_case_details_automated env c).2 := by
  have h1 := close_not_find env.dom c.serial
  cases hv : (find_and_click_view_button env.dom c.serial).1 with
  | false => simp [capture_case_details_automated, hv, h1]
  | true =>
    simp only [capture_case_details_automated, hv, if_true]
    intro hmem
    simp only [List.mem_append, List.mem_cons, List.mem_map] at hmem
    rcases hmem with ((((h | h) | ⟨a, -, h⟩) | h) | h)
    · exact h1 h
    · rcases h with h | h | h | h <;> cases h
    · cases h
    · exact close_not_back env.backDom h
    · cases hb : (click_back_button env.backDom).1 <;> rw [hb] at h <;> simp at h

theorem close_not_captureLoop (envs : Nat → RowEnv) :
    ∀ (ms : List Case) (i : Nat), Op.close ∉ (captureLoop envs i ms).2 := by
  intro ms
  induction ms with
  | nil => intro i; simp [captureLoop]
  | cons c rest ih =>
    intro i
    simp only [captureLoop]
    intro hmem
    rcases List.mem_append.mp hmem with h | h
    · exact close_not_capture (envs i) c h
    · exact ih (i + 1) h

theorem close_not_captcha (a b : Bool) :
    Op.close ∉ save_captcha_image_trace a b := by
  cases a <;> cases b <;> decide

theorem close_not_category (a b : Bool) : Op.close ∉ category_trace a b := by
  cases a <;> cases b <;> decide

/-- C5: the specification demands that the session acquired at bootstrap be
released exactly once on every exit path, but no exit path of the program
ever performs the release: the close operation occurs zero times in the
operation trace of every full run. -/
theorem C5_session_never_closed (rp : RunParams) :
    (scrape_run_trace rp).count Op.close = 0 := by
  rw [List.count_eq_zero]
  intro hmem
  simp only [scrape_run_trace, process_scraping_trace, perform_capture,
    List.mem_append] at hmem
  rcases hmem with (((h | h) | ((h | h) | h)) | h)
  · exact absurd h (by decide)
  · exact close_not_captcha rp.captchaFound rp.captchaEmbedded h
  · simp at h
  · exact close_not_category rp.civilFound rp.criminalFound h
  · exact close_not_paginate rp.P rp.pages rp.probe _ _ _ h
  · exact close_not_captureLoop rp.envs _ 0 h

end ECourts
